import Mathlib

/-
  Verification of the ezdrop chunked-upload subsystem.

  Shallow embedding of:
  - the CRC32 engine (static/js crc32 worker and FileBrowser.calculateCRC32),
  - the sender-side chunk planner (getOptimalChunkSize, totalChunks),
  - the receiver-side session (ChunkedUpload, WriteChunk, IsComplete,
    Finalize, Cleanup) from main.go,
  - the handler path resolution and session create-or-fetch from
    handleChunkUpload in main.go,
  - the background reaper sweep from handleChunkUpload in main.go.

  Machine integers are modelled as Nat (unsigned 32-bit state is kept below
  2 to the 32 by construction, with explicit masking where the source masks)
  and Go int or int64 as Int.  File-system effects are modelled as explicit
  state: the temporary directory of a session is an association list from
  chunk index to the bytes of the chunk file.
-/

namespace EzDrop

/-
  CRC32 engine.  Source (crc32 worker):
    for j in 0..7: c = (c and 1) ? (0xEDB88320 xor (c >>> 1)) : (c >>> 1)
    table[i] = c after 8 steps starting from i
    feed:     crc = (crc >>> 8) xor table[(crc xor byte) and 0xFF]
    seed:     0xFFFFFFFF
    output:   (crc xor 0xFFFFFFFF) >>> 0
-/

def crcPoly : Nat := 0xEDB88320

def crcEntryStep (c : Nat) : Nat :=
  if c % 2 = 1 then crcPoly ^^^ (c / 2) else c / 2

def crc32TableEntry (i : Nat) : Nat := crcEntryStep^[8] i

def crc32Step (crc b : Nat) : Nat :=
  (crc / 256) ^^^ crc32TableEntry ((crc ^^^ b) % 256)

def crc32Feed (s : Nat) (bytes : List Nat) : Nat :=
  bytes.foldl crc32Step s

def CRC_SEED : Nat := 0xFFFFFFFF

def crc32Finish (s : Nat) : Nat := (s ^^^ 0xFFFFFFFF) % 2 ^ 32

def calculateCRC32 (bytes : List Nat) : Nat :=
  crc32Finish (crc32Feed CRC_SEED bytes)

/-
  Sender-side chunk planner.  Source (handleFileDrop in the file-browser
  script):
    getOptimalChunkSize: 256KB for files up to 1MB, 1MB up to 100MB,
    5MB up to 1GB, 10MB above;
    totalChunks = Math.ceil(file.size / chunkSize).
-/

def getOptimalChunkSize (fileSize : Nat) : Nat :=
  if fileSize ≤ 1024 * 1024 then 256 * 1024
  else if fileSize ≤ 100 * 1024 * 1024 then 1024 * 1024
  else if fileSize ≤ 1024 * 1024 * 1024 then 5 * 1024 * 1024
  else 10 * 1024 * 1024

def totalChunksFor (fileSize : Nat) : Nat :=
  (fileSize + getOptimalChunkSize fileSize - 1) / getOptimalChunkSize fileSize

/-- Modelled from the spec: the Chunk Planner tier table of section 4.2,
written as the spec states it, to be compared with getOptimalChunkSize. -/
def specTierChunkSize (fileSize : Nat) : Nat :=
  if fileSize ≤ 2 ^ 20 then 2 ^ 18
  else if fileSize ≤ 100 * 2 ^ 20 then 2 ^ 20
  else if fileSize ≤ 2 ^ 30 then 5 * 2 ^ 20
  else 10 * 2 ^ 20

/-
  Path model.  Go's filepath.Join(a, b) is Clean(a + "/" + b); for absolute
  a, Clean resolves "." and ".." lexically and collapses empty components.
  Paths are strings; splitting and cleaning work on the slash-separated
  components.  strings.HasPrefix(s, p) is a plain string comparison.
-/

def splitSlashAux : List Char → List Char → List String
  | acc, [] => [String.mk acc.reverse]
  | acc, c :: rest =>
    if c = '/' then String.mk acc.reverse :: splitSlashAux [] rest
    else splitSlashAux (c :: acc) rest

def cleanAbs (comps : List String) : List String :=
  comps.foldl (fun acc c =>
    if c = "" ∨ c = "." then acc
    else if c = ".." then acc.dropLast
    else acc ++ [c]) []

def ofComponents (comps : List String) : String :=
  "/" ++ String.intercalate "/" comps

def filepathJoin (a b : String) : String :=
  ofComponents (cleanAbs (splitSlashAux [] (a.toList ++ '/' :: b.toList)))

/-- Go strings.HasPrefix s p. -/
def strStartsWith (s p : String) : Bool :=
  p.toList.isPrefixOf s.toList

/-- A resolved path lies within the base directory: base is a component-wise
ancestor of the path (the spec's notion of "within the base directory"). -/
def withinBase (baseDir path : String) : Bool :=
  (cleanAbs (splitSlashAux [] baseDir.toList)).isPrefixOf
    (cleanAbs (splitSlashAux [] path.toList))

/-
  Receiver-side session state, from main.go.

  type ChunkedUpload struct: FileName, TargetPath, TotalChunks, TotalSize,
  ReceivedSize, Chunks (allocated but never used by the code), TempDir,
  LastActivity, mu.  The temporary directory contents are modelled as an
  association list from chunk index to the chunk file's bytes; os.WriteFile
  overwrites an existing file.  The lock mu and wall-clock time are modelled
  by passing the current time explicitly.
-/

structure ChunkedUpload where
  FileName : String
  TargetPath : String
  TotalChunks : Int
  TotalSize : Int
  ReceivedSize : Int
  TempFiles : List (Int × List Nat)
  LastActivity : Nat
deriving DecidableEq

/-- Contents of chunk file chunk_i in the temp directory, if present. -/
def lookupTemp : List (Int × List Nat) → Int → Option (List Nat)
  | [], _ => none
  | (k, v) :: rest, i => if k = i then some v else lookupTemp rest i

/-- os.WriteFile of chunk_i: overwrite if present, create otherwise. -/
def writeTempFile : List (Int × List Nat) → Int → List Nat → List (Int × List Nat)
  | [], i, d => [(i, d)]
  | (k, v) :: rest, i, d =>
    if k = i then (i, d) :: rest else (k, v) :: writeTempFile rest i d

/-- NewChunkedUpload (main.go 435-451).  os.MkdirTemp may fail, in which
case the function logs and returns nil — modelled as none. -/
def NewChunkedUpload (fileName targetDir : String) (totalChunks : Int)
    (totalSize : Int) (mkdirTempOk : Bool) (now : Nat) : Option ChunkedUpload :=
  if mkdirTempOk then
    some { FileName := fileName
           TargetPath := filepathJoin targetDir fileName
           TotalChunks := totalChunks
           TotalSize := totalSize
           ReceivedSize := 0
           TempFiles := []
           LastActivity := now }
  else none

/-- ChunkedUpload.WriteChunk (main.go 453-465): write chunk file for the
declared index, add len(data) to ReceivedSize, refresh LastActivity.
No index bound check, no checksum check, no duplicate tracking.  The
os.WriteFile error path (environmental storage failure) is not modelled. -/
def writeChunk (u : ChunkedUpload) (index : Int) (data : List Nat) (now : Nat) :
    ChunkedUpload :=
  { u with TempFiles := writeTempFile u.TempFiles index data
           ReceivedSize := u.ReceivedSize + data.length
           LastActivity := now }

/-- ChunkedUpload.IsComplete (main.go 467-471). -/
def isComplete (u : ChunkedUpload) : Bool :=
  u.ReceivedSize ≥ u.TotalSize

/-- The read-and-append loop of Finalize, for a given list of indices:
os.ReadFile fails (none) when the chunk file for an index is missing,
otherwise the bytes are appended in order. -/
def finalizeChunks (tf : List (Int × List Nat)) : List Nat → Option (List Nat)
  | [] => some []
  | i :: rest =>
    match lookupTemp tf (i : Int) with
    | none => none
    | some d => (finalizeChunks tf rest).map (fun t => d ++ t)

/-- ChunkedUpload.Finalize (main.go 473-498): for i from 0 to
TotalChunks - 1, read chunk_i and append it to the destination file.
Returns the bytes written to the destination, or none when a chunk file
is missing. -/
def finalizeData (u : ChunkedUpload) : Option (List Nat) :=
  finalizeChunks u.TempFiles (List.range u.TotalChunks.toNat)

/-
  handleChunkUpload (main.go 334-421), decomposed.

  The Go struct ChunkInfo has exactly the five fields below; the client
  additionally sends chunkChecksum and fileChecksum, which the decoder
  drops because the struct has no such fields.
-/

structure ChunkInfo where
  fileName : String
  chunkIndex : Int
  totalChunks : Int
  chunkSize : Int
  totalSize : Int
deriving DecidableEq

/-- One chunk request as the sender builds it (handleFileDrop): metadata
including both checksums, plus the payload bytes. -/
structure ChunkRequest where
  fileName : String
  chunkIndex : Int
  totalChunks : Int
  chunkSize : Int
  totalSize : Int
  chunkChecksum : Nat
  fileChecksum : Nat
  payload : List Nat
deriving DecidableEq

/-- json.NewDecoder(r.Body).Decode(&chunkInfo): only the fields present in
the Go ChunkInfo struct survive; chunkChecksum and fileChecksum are
silently discarded. -/
def decodeChunkInfo (r : ChunkRequest) : ChunkInfo :=
  { fileName := r.fileName
    chunkIndex := r.chunkIndex
    totalChunks := r.totalChunks
    chunkSize := r.chunkSize
    totalSize := r.totalSize }

/-- Lines 362-372: resolve the target directory from the dir query
parameter and reject it unless it has baseDir as a string prefix. -/
def resolveTargetDir (baseDir dirParam : String) : Option String :=
  let targetDir := if dirParam = "" then baseDir else filepathJoin baseDir dirParam
  if strStartsWith targetDir baseDir then some targetDir else none

/-- Lines 394-405 applied to one session: allocate a buffer of chunkSize
bytes, io.ReadFull it from the body (fails when fewer bytes are
available), then call WriteChunk with the declared index.  none models
the handler returning an HTTP error before or instead of mutating the
session beyond WriteChunk. -/
def processChunkRequest (u : ChunkedUpload) (r : ChunkRequest) (now : Nat) :
    Option ChunkedUpload :=
  let info := decodeChunkInfo r
  if r.payload.length < info.chunkSize.toNat then none
  else some (writeChunk u info.chunkIndex (r.payload.take info.chunkSize.toNat) now)

/-- fmt.Sprintf of the upload ID (line 382). -/
def uploadIDFor (fileName : String) (totalSize : Int) : String :=
  fileName ++ "_" ++ toString totalSize

/-- The activeUploads registry.  A value of none models a nil
*ChunkedUpload pointer stored in the map. -/
def lookupSessions : List (String × Option ChunkedUpload) → String →
    Option (Option ChunkedUpload)
  | [], _ => none
  | (k, v) :: rest, id => if k = id then some v else lookupSessions rest id

/-- Lines 384-392: create-or-fetch.  The session handle subsequently
passed to upload.WriteChunk; when the session is new and os.MkdirTemp
failed, this handle is nil (none) and the handler dereferences it. -/
def sessionForRequest (sessions : List (String × Option ChunkedUpload))
    (info : ChunkInfo) (targetDir : String) (mkdirTempOk : Bool) (now : Nat) :
    Option ChunkedUpload :=
  match lookupSessions sessions (uploadIDFor info.fileName info.totalSize) with
  | some u => u
  | none => NewChunkedUpload info.fileName targetDir info.totalChunks
      info.totalSize mkdirTempOk now

/-
  Reaper (main.go 340-354): every time.Minute, remove and clean up every
  session with time.Since(LastActivity) > 10*time.Minute.  Times are in
  seconds.
-/

def reaperPeriod : Nat := 60

def reaperTimeout : Nat := 600

/-- One sweep of the cleanup goroutine at time now: first component the
sessions kept in the registry (unchanged), second the sessions evicted
(whose temp areas are deleted by upload.Cleanup). -/
def reaperSweep (sessions : List (String × ChunkedUpload)) (now : Nat) :
    List (String × ChunkedUpload) × List (String × ChunkedUpload) :=
  (sessions.filter (fun p => decide (¬ reaperTimeout < now - p.2.LastActivity)),
   sessions.filter (fun p => decide (reaperTimeout < now - p.2.LastActivity)))

/-- Applying a list of (index, data) chunk writes to a session in order. -/
def applyWrites (u : ChunkedUpload) (ws : List (Int × List Nat)) (now : Nat) :
    ChunkedUpload :=
  ws.foldl (fun s w => writeChunk s w.1 w.2 now) u

/-- The chunk list paired with its zero-based indices, starting at i0. -/
def indexedFrom : Int → List (List Nat) → List (Int × List Nat)
  | _, [] => []
  | i, c :: cs => (i, c) :: indexedFrom (i + 1) cs

/-- Concatenation of the chunks in list order. -/
def concatAll : List (List Nat) → List Nat
  | [] => []
  | c :: cs => c ++ concatAll cs

/-
  Concrete states and requests used to evaluate the receiver at specific
  inputs.
-/

/-- A session holding one previously accepted chunk [7] at index 0. -/
def corruptedSession : ChunkedUpload :=
  { FileName := "f.bin", TargetPath := "/data/f.bin", TotalChunks := 2, TotalSize := 2,
    ReceivedSize := 1, TempFiles := [(0, [7])], LastActivity := 0 }

/-- A retransmission of chunk 0 whose payload [9] is corrupted: the declared
chunkChecksum is the CRC32 of the original byte [7], not of [9]. -/
def corruptedRequest : ChunkRequest :=
  { fileName := "f.bin", chunkIndex := 0, totalChunks := 2, chunkSize := 1, totalSize := 2,
    chunkChecksum := calculateCRC32 [7], fileChecksum := 0, payload := [9] }

/-- A fresh 3-chunk session for a 3-byte file. -/
def dupDemoSession : ChunkedUpload :=
  { FileName := "g.bin", TargetPath := "/data/g.bin", TotalChunks := 3, TotalSize := 3,
    ReceivedSize := 0, TempFiles := [], LastActivity := 0 }

/-- dupDemoSession after receiving chunk 1, chunk 1 again (a duplicate with
the same correct data), and chunk 0.  Chunk 2 never arrives. -/
def dupDemoFinal : ChunkedUpload :=
  writeChunk (writeChunk (writeChunk dupDemoSession 1 [10] 1) 1 [10] 2) 0 [20] 3

/-- A fresh 2-chunk session for a 4-byte file. -/
def oobSession : ChunkedUpload :=
  { FileName := "h.bin", TargetPath := "/data/h.bin", TotalChunks := 2, TotalSize := 4,
    ReceivedSize := 0, TempFiles := [], LastActivity := 0 }

/-- A chunk request declaring index 5 against totalChunks = 2. -/
def oobRequest : ChunkRequest :=
  { fileName := "h.bin", chunkIndex := 5, totalChunks := 2, chunkSize := 1, totalSize := 4,
    chunkChecksum := 0, fileChecksum := 0, payload := [1] }

/-- A chunk request declaring the negative index -1. -/
def oobRequestNeg : ChunkRequest :=
  { oobRequest with chunkIndex := -1, payload := [2] }

/-- Metadata of a first chunk request for a new transfer identity. -/
def nilDemoInfo : ChunkInfo :=
  { fileName := "f.bin", chunkIndex := 0, totalChunks := 2, chunkSize := 1, totalSize := 2 }

/-- The session NewChunkedUpload builds for a 3-chunk 5-byte file. -/
def uC3 : ChunkedUpload :=
  { FileName := "a.bin", TargetPath := "/data/a.bin", TotalChunks := 3, TotalSize := 5,
    ReceivedSize := 0, TempFiles := [], LastActivity := 0 }

/-- A partially received session last active at time 0. -/
def reapStale : ChunkedUpload :=
  { FileName := "s.bin", TargetPath := "/data/s.bin", TotalChunks := 4, TotalSize := 4096,
    ReceivedSize := 1024, TempFiles := [(0, [1])], LastActivity := 0 }

/-- A session last active at time 700. -/
def reapFresh : ChunkedUpload :=
  { FileName := "t.bin", TargetPath := "/data/t.bin", TotalChunks := 2, TotalSize := 2048,
    ReceivedSize := 0, TempFiles := [], LastActivity := 700 }

/-
  Theorems.  General lemmas about the temporary-area association list and
  about applyWrites come first, then one theorem per verified claim.
-/

theorem lookupTemp_writeTempFile_self (fs : List (Int × List Nat)) (i : Int) (d : List Nat) :
    lookupTemp (writeTempFile fs i d) i = some d := by
  induction fs with
  | nil => simp [writeTempFile, lookupTemp]
  | cons p rest ih =>
    obtain ⟨k, v⟩ := p
    by_cases h : k = i
    · simp [writeTempFile, h, lookupTemp]
    · simp [writeTempFile, h, lookupTemp, ih]

theorem lookupTemp_writeTempFile_other (fs : List (Int × List Nat)) (i j : Int)
    (d : List Nat) (h : j ≠ i) :
    lookupTemp (writeTempFile fs i d) j = lookupTemp fs j := by
  have h' : i ≠ j := fun hh => h hh.symm
  induction fs with
  | nil => simp [writeTempFile, lookupTemp, h']
  | cons p rest ih =>
    obtain ⟨k, v⟩ := p
    by_cases hk : k = i
    · subst hk
      simp [writeTempFile, lookupTemp, h']
    · simp [writeTempFile, hk, lookupTemp, ih]

theorem applyWrites_TotalChunks (ws : List (Int × List Nat)) (now : Nat) :
    ∀ u : ChunkedUpload, (applyWrites u ws now).TotalChunks = u.TotalChunks := by
  induction ws with
  | nil => intro u; rfl
  | cons w rest ih => intro u; exact (ih (writeChunk u w.1 w.2 now)).trans rfl

theorem lookupTemp_applyWrites_not_mem (now : Nat) (ws : List (Int × List Nat)) (i : Int)
    (h : i ∉ ws.map Prod.fst) :
    ∀ u : ChunkedUpload,
      lookupTemp (applyWrites u ws now).TempFiles i = lookupTemp u.TempFiles i := by
  induction ws with
  | nil => intro u; rfl
  | cons w rest ih =>
    intro u
    simp only [List.map_cons, List.mem_cons] at h
    push_neg at h
    have step : (applyWrites u (w :: rest) now) =
        applyWrites (writeChunk u w.1 w.2 now) rest now := rfl
    rw [step, ih h.2]
    exact lookupTemp_writeTempFile_other u.TempFiles w.1 i w.2 h.1

theorem lookupTemp_applyWrites_mem (now : Nat) (ws : List (Int × List Nat)) (i : Int)
    (d : List Nat) (hnd : (ws.map Prod.fst).Nodup) (h : (i, d) ∈ ws) :
    ∀ u : ChunkedUpload,
      lookupTemp (applyWrites u ws now).TempFiles i = some d := by
  induction ws with
  | nil => cases h
  | cons w rest ih =>
    intro u
    have step : (applyWrites u (w :: rest) now) =
        applyWrites (writeChunk u w.1 w.2 now) rest now := rfl
    rw [step]
    rcases List.mem_cons.mp h with heq | hmem
    · subst heq
      simp only [List.map_cons, List.nodup_cons] at hnd
      rw [lookupTemp_applyWrites_not_mem now rest i hnd.1]
      exact lookupTemp_writeTempFile_self u.TempFiles i d
    · simp only [List.map_cons, List.nodup_cons] at hnd
      exact ih hnd.2 hmem (writeChunk u w.1 w.2 now)

theorem le_of_mem_indexedFrom_fst (cs : List (List Nat)) :
    ∀ (i0 k : Int), k ∈ (indexedFrom i0 cs).map Prod.fst → i0 ≤ k := by
  induction cs with
  | nil => intro i0 k h; cases h
  | cons c rest ih =>
    intro i0 k h
    simp only [indexedFrom, List.map_cons, List.mem_cons] at h
    rcases h with h | h
    · omega
    · have := ih (i0 + 1) k h
      omega

theorem indexedFrom_fst_nodup (cs : List (List Nat)) :
    ∀ i0 : Int, ((indexedFrom i0 cs).map Prod.fst).Nodup := by
  induction cs with
  | nil => intro i0; simp [indexedFrom]
  | cons c rest ih =>
    intro i0
    simp only [indexedFrom, List.map_cons, List.nodup_cons]
    refine ⟨fun hmem => ?_, ih (i0 + 1)⟩
    have := le_of_mem_indexedFrom_fst rest (i0 + 1) i0 hmem
    omega

theorem mem_indexedFrom (cs : List (List Nat)) :
    ∀ (i0 : Int) (j : Nat) (h : j < cs.length), (i0 + (j : Int), cs[j]) ∈ indexedFrom i0 cs := by
  induction cs with
  | nil => intro i0 j h; simp at h
  | cons c rest ih =>
    intro i0 j h
    cases j with
    | zero => simp [indexedFrom]
    | succ j =>
      have hj : j < rest.length := by simpa using h
      have hmem := ih (i0 + 1) j hj
      simp only [indexedFrom, List.mem_cons]
      right
      have harith : i0 + ((j + 1 : Nat) : Int) = i0 + 1 + (j : Int) := by omega
      rw [harith]
      exact hmem

theorem finalizeChunks_eq_of_lookup (tf : List (Int × List Nat)) (g : Nat → List Nat) :
    ∀ idxs : List Nat, (∀ i ∈ idxs, lookupTemp tf (i : Int) = some (g i)) →
      finalizeChunks tf idxs = some (concatAll (idxs.map g)) := by
  intro idxs
  induction idxs with
  | nil => intro _; rfl
  | cons i rest ih =>
    intro h
    have hi := h i (List.mem_cons_self i rest)
    have hrest := ih (fun j hj => h j (List.mem_cons_of_mem i hj))
    simp only [finalizeChunks, List.map_cons, concatAll]
    rw [hi, hrest]
    rfl

theorem range_map_getD (cs : List (List Nat)) :
    (List.range cs.length).map (fun i => cs.getD i []) = cs := by
  induction cs with
  | nil => rfl
  | cons c rest ih =>
    rw [List.length_cons, List.range_succ_eq_map, List.map_cons, List.map_map]
    simp only [List.getD_cons_zero, Function.comp]
    congr 1

/-- Claim C1: the spec requires a chunk whose recomputed CRC32 differs from
its declared chunkChecksum to be rejected with no session mutation.  The
code accepts it: at a concrete request whose payload [9] does not match its
declared checksum (the CRC32 of [7]), the handler counts the corrupt bytes
toward ReceivedSize and overwrites the previously good chunk at index 0 in
temporary storage.  The server never recomputes any checksum; its ChunkInfo
struct does not even retain the declared one. -/
theorem checksum_mismatch_accepted :
    calculateCRC32 corruptedRequest.payload ≠ corruptedRequest.chunkChecksum ∧
    processChunkRequest corruptedSession corruptedRequest 5 =
      some { corruptedSession with ReceivedSize := 2, TempFiles := [(0, [9])], LastActivity := 5 } := by
  decide

/-- Claim C2: the spec requires that no reachable complete session lacks a
chunk index.  The code violates it: re-uploading chunk 1 a second time with
correct data double-counts its bytes, so after chunks 1, 1, 0 of a 3-chunk
file the completion predicate holds, index 2 is absent from temporary
storage, and the finalize the handler then triggers fails. -/
theorem duplicate_chunk_double_count :
    isComplete dupDemoFinal = true ∧
    dupDemoFinal.ReceivedSize = dupDemoFinal.TotalSize ∧
    lookupTemp dupDemoFinal.TempFiles 2 = none ∧
    finalizeData dupDemoFinal = none := by
  decide

/-- Claim C3: once every chunk index 0..totalChunks-1 of the file has been
written to the session's temporary area, in any arrival order, Finalize
reads the chunk files in ascending index order and produces exactly the
concatenation of the chunks. -/
theorem finalize_reassembles (fileName targetDir : String) (chunks : List (List Nat))
    (ws : List (Int × List Nat)) (totalSize : Int) (now t0 : Nat) (u0 : ChunkedUpload)
    (hnew : NewChunkedUpload fileName targetDir (chunks.length : Int) totalSize true t0 = some u0)
    (hperm : ws.Perm (indexedFrom 0 chunks)) :
    finalizeData (applyWrites u0 ws now) = some (concatAll chunks) := by
  have h0 := Option.some.inj hnew
  have hTemp : u0.TempFiles = [] := by rw [← h0]
  have hTot : u0.TotalChunks = (chunks.length : Int) := by rw [← h0]
  have hnd : (ws.map Prod.fst).Nodup :=
    ((hperm.map Prod.fst).nodup_iff).mpr (indexedFrom_fst_nodup chunks 0)
  have hlk : ∀ i ∈ List.range chunks.length,
      lookupTemp (applyWrites u0 ws now).TempFiles (i : Int) = some (chunks.getD i []) := by
    intro i hi
    have hilen : i < chunks.length := List.mem_range.mp hi
    have hmem0 : ((0 : Int) + (i : Int), chunks[i]) ∈ indexedFrom 0 chunks :=
      mem_indexedFrom chunks 0 i hilen
    have hmem : ((i : Int), chunks[i]) ∈ ws := by
      refine hperm.mem_iff.mpr ?_
      simpa using hmem0
    have hl := lookupTemp_applyWrites_mem now ws (i : Int) chunks[i] hnd hmem u0
    rw [hl, List.getD_eq_getElem chunks [] hilen]
  have hfin : finalizeData (applyWrites u0 ws now) =
      finalizeChunks (applyWrites u0 ws now).TempFiles (List.range chunks.length) := by
    unfold finalizeData
    rw [applyWrites_TotalChunks ws now u0, hTot]
    congr 1
  rw [hfin, finalizeChunks_eq_of_lookup _ _ _ hlk, range_map_getD]

/-- Witness for C3: chunks arriving in order 2, 0, 1 still finalize to the
original concatenation. -/
theorem finalize_reassembles_witness :
    finalizeData (applyWrites uC3 [(2, [4, 5]), (0, [1, 2]), (1, [3])] 9) =
      some [1, 2, 3, 4, 5] := by
  have h := finalize_reassembles "a.bin" "/data" [[1, 2], [3], [4, 5]]
    [(2, [4, 5]), (0, [1, 2]), (1, [3])] 5 9 0 uC3 (by decide) (by decide)
  exact h

/-- Claim C4: feeding byte string A and then B through the CRC32 engine
while carrying the running 32-bit state, and finalizing after B, equals
feeding the concatenation of A and B in one pass from the seed. -/
theorem crc32_incremental (A B : List Nat) :
    crc32Finish (crc32Feed (crc32Feed CRC_SEED A) B) =
      crc32Finish (crc32Feed CRC_SEED (A ++ B)) := by
  unfold crc32Feed
  rw [List.foldl_append]

/-- Claim C5: the spec requires fileSize = 0 to yield exactly one (empty)
chunk.  The code computes Math.ceil(0 / 262144) = 0: a zero-byte file
produces zero chunks, so no chunk request is ever sent and the file is not
representable. -/
theorem zero_size_yields_zero_chunks :
    totalChunksFor 0 = 0 ∧ getOptimalChunkSize 0 = 256 * 1024 := by
  decide

/-- Claim C6: the spec requires the receiver to refuse any resolved path
outside the base directory.  The code checks only the dir query parameter:
a request with dir empty passes the prefix check, yet the fileName
"../secret" is joined into the session's TargetPath unchecked, and the
resulting "/secret" lies outside the base directory "/data". -/
theorem fileName_traversal_escapes_base :
    resolveTargetDir "/data" "" = some "/data" ∧
    (NewChunkedUpload "../secret" "/data" 1 1 true 0).map ChunkedUpload.TargetPath =
      some "/secret" ∧
    strStartsWith "/secret" "/data" = false ∧
    withinBase "/data" "/secret" = false := by
  decide

/-- Claim C7: the chunk planner follows the spec's tier table exactly
(256 KiB up to 1 MiB, 1 MiB up to 100 MiB, 5 MiB up to 1 GiB, 10 MiB
above), and totalChunks is the ceiling of fileSize / chunkSize: the least
chunk count whose chunks cover the file. -/
theorem chunk_planner_tiers (n : Nat) :
    getOptimalChunkSize n = specTierChunkSize n ∧
    0 < getOptimalChunkSize n ∧
    n ≤ totalChunksFor n * getOptimalChunkSize n ∧
    (∀ k : Nat, n ≤ k * getOptimalChunkSize n → totalChunksFor n ≤ k) := by
  constructor
  · unfold getOptimalChunkSize specTierChunkSize
    norm_num
  · unfold totalChunksFor getOptimalChunkSize
    split_ifs <;> refine ⟨by norm_num, by omega, fun k hk => by omega⟩

/-- Witness for C7: a 3 MiB file gets 1 MiB chunks and exactly 3 of them. -/
theorem chunk_planner_tiers_witness :
    3145728 ≤ 3 * getOptimalChunkSize 3145728 ∧ totalChunksFor 3145728 ≤ 3 :=
  ⟨by decide, (chunk_planner_tiers 3145728).2.2.2 3 (by decide)⟩

/-- Counterexample for C8: the claim says an out-of-range chunk index is
rejected without being written or counted.  At index 5 against
totalChunks = 2, and at index -1, the receiver writes the chunk file under
the declared index and counts its bytes. -/
theorem out_of_range_index_accepted :
    (oobRequest.chunkIndex ≥ oobRequest.totalChunks ∧
      processChunkRequest oobSession oobRequest 1 =
        some { oobSession with ReceivedSize := 1, TempFiles := [(5, [1])], LastActivity := 1 }) ∧
    (oobRequestNeg.chunkIndex < 0 ∧
      processChunkRequest oobSession oobRequestNeg 1 =
        some { oobSession with ReceivedSize := 1, TempFiles := [(-1, [2])], LastActivity := 1 }) := by
  decide

/-- Claim C8 as amended: the receiver performs no validation of the
declared chunk index.  WriteChunk persists any index, in range or not,
under a file named by that index and adds the chunk's length to
ReceivedSize. -/
theorem writeChunk_unvalidated_index (u : ChunkedUpload) (i : Int) (d : List Nat) (t : Nat) :
    (writeChunk u i d t).ReceivedSize = u.ReceivedSize + (d.length : Int) ∧
    lookupTemp (writeChunk u i d t).TempFiles i = some d :=
  ⟨rfl, lookupTemp_writeTempFile_self u.TempFiles i d⟩

/-- Claim C9: a reaper sweep at time now keeps exactly the sessions whose
inactivity is at most the 10-minute ceiling, unchanged, and evicts exactly
those whose inactivity exceeds it, regardless of received bytes; the sweep
runs on a one-minute period. -/
theorem reaper_sweep_partition (sessions : List (String × ChunkedUpload)) (now : Nat)
    (id : String) (u : ChunkedUpload) :
    ((id, u) ∈ (reaperSweep sessions now).1 ↔
      (id, u) ∈ sessions ∧ now - u.LastActivity ≤ reaperTimeout) ∧
    ((id, u) ∈ (reaperSweep sessions now).2 ↔
      (id, u) ∈ sessions ∧ reaperTimeout < now - u.LastActivity) ∧
    reaperPeriod = 60 := by
  refine ⟨?_, ?_, rfl⟩ <;> simp [reaperSweep, List.mem_filter, Nat.not_lt]

/-- Witness for C9: at time 1000, the session idle since 700 is kept and
the one idle since 0 is evicted. -/
theorem reaper_sweep_partition_witness :
    ("t.bin_2048", reapFresh) ∈
      (reaperSweep [("s.bin_4096", reapStale), ("t.bin_2048", reapFresh)] 1000).1 ∧
    ("s.bin_4096", reapStale) ∈
      (reaperSweep [("s.bin_4096", reapStale), ("t.bin_2048", reapFresh)] 1000).2 :=
  ⟨((reaper_sweep_partition [("s.bin_4096", reapStale), ("t.bin_2048", reapFresh)] 1000
      "t.bin_2048" reapFresh).1).mpr ⟨by decide, by decide⟩,
   ((reaper_sweep_partition [("s.bin_4096", reapStale), ("t.bin_2048", reapFresh)] 1000
      "s.bin_4096" reapStale).2.1).mpr ⟨by decide, by decide⟩⟩

/-- Claim C10: the spec implies the session handle WriteChunk is invoked on
is never nil.  The code violates it: on the first chunk request for a new
identity, if os.MkdirTemp fails, NewChunkedUpload returns nil, the handler
stores it and immediately invokes WriteChunk on it, a nil dereference. -/
theorem nil_session_on_mkdir_failure :
    sessionForRequest [] nilDemoInfo "/data" false 0 = none := rfl

end EzDrop
